import Mathlib

/-!
Verification of the lex/yacc-style parser construction toolkit (PLY)
against its natural-language specification.

The repository ships only the test suite under `src/test` and `src/tests`;
the implementation modules `ply/lex.py` and `ply/yacc.py` themselves are not
part of the sources available here.  The definitions below therefore model
the missing implementation from the specification (`spec.md`), and — where
the specification is silent or contradicted — from the diagnostic strings
recorded verbatim in the repository's own tests (`src/test/testlex.py`,
`src/test/testyacc.py`).  Every modelled definition says in its doc comment
which part of the spec (and, when applicable, which recorded test
expectation) it follows.
-/

namespace Ply

/-! ### Regular expressions

Modelled from the spec §4.2: the host regex engine is an opaque service
providing compilation, an empty-input probe, and longest-match semantics.
We realise it with a small regex abstract syntax and Brzozowski derivatives. -/

/-- Modelled from the spec: abstract syntax of the regular expressions
carried by lexing rules.  `cls` is a character class given by a decidable
character predicate; `emp` denotes the empty language. -/
inductive Regex : Type
  | emp
  | eps
  | chr (c : Char)
  | cls (p : Char → Bool)
  | cat (r s : Regex)
  | alt (r s : Regex)
  | star (r : Regex)

/-- Optional pattern, the `?` postfix operator. -/
def Regex.opt (r : Regex) : Regex := .alt r .eps

/-- One-or-more repetition, the `+` postfix operator. -/
def Regex.rep1 (r : Regex) : Regex := .cat r (.star r)

/-- Modelled from the spec: whether a regex matches the empty string
(this is the build-time probe "match against empty input"). -/
def nullable : Regex → Bool
  | .emp => false
  | .eps => true
  | .chr _ => false
  | .cls _ => false
  | .cat r s => nullable r && nullable s
  | .alt r s => nullable r || nullable s
  | .star _ => true

/-- Brzozowski derivative of a regex by one character. -/
def deriv : Regex → Char → Regex
  | .emp, _ => .emp
  | .eps, _ => .emp
  | .chr c, a => if a = c then .eps else .emp
  | .cls p, a => if p a then .eps else .emp
  | .cat r s, a =>
      if nullable r then .alt (.cat (deriv r a) s) (deriv s a)
      else .cat (deriv r a) s
  | .alt r s, a => .alt (deriv r a) (deriv s a)
  | .star r, a => .cat (deriv r a) (.star r)

/-- Length of the longest prefix of `cs` matched by `r`, keeping track of the
number `n` of characters already consumed and the best match seen so far. -/
def longestFrom (r : Regex) (cs : List Char) (n : Nat) (best : Option Nat) :
    Option Nat :=
  let best := if nullable r then some n else best
  match cs with
  | [] => best
  | c :: cs => longestFrom (deriv r c) cs (n + 1) best

/-- Modelled from the spec: the engine's longest-match operation — the length
of the longest prefix of the input matched by the regex, if any. -/
def longestMatch (r : Regex) (cs : List Char) : Option Nat :=
  longestFrom r cs 0 none

/-- Character class of ASCII digits (`\d` in rule patterns). -/
def digit : Regex := .cls fun c => c.isDigit

/-! ### Diagnostic message texts

The exact strings are the ones the repository's tests record
(`src/test/testlex.py`); `\x27` is the ASCII apostrophe used to quote
names in those messages. -/

/-- Quote a name the way the diagnostics of the source do. -/
def q (s : String) : String := "\x27" ++ s ++ "\x27"

/-- Diagnostic of `src/test/testlex.py:115` (test_lex_re2): the empty-match
build error for a string-form rule. -/
def emptyMatchMsg (n : String) : String :=
  "lex: Regular expression for rule " ++ q n ++ " matches empty string."

/-- Diagnostic of `src/test/testlex.py:121` (test_lex_re3): the host engine
rejects the rule's pattern; the engine message for a verbose-mode pattern cut
short by an unescaped pound character is an unbalanced parenthesis. -/
def invalidRegexMsg (n : String) : String :=
  "lex: Invalid regular expression for rule " ++ q n ++ ". unbalanced parenthesis"

/-- Diagnostic of `src/test/testlex.py:122` (test_lex_re3): the escaping hint
attached to the invalid-regex report when the pattern holds a pound sign. -/
def poundHintMsg (n : String) : String :=
  "lex: Make sure " ++ q "#" ++ " in rule " ++ q n ++ " is escaped with " ++
    q "\\#" ++ "."

/-- Diagnostic of `src/test/testlex.py:99` (test_lex_ignore2): warning for a
literal backslash inside the `t_ignore` string. -/
def ignoreBackslashMsg : String :=
  "lex: Warning. t_ignore contains a literal backslash " ++ q "\\"

/-- Diagnostic of `src/test/testlex.py:154` (test_lex_state2): an element of
the `states` declaration that is not a (name, type) pair. -/
def badStateSpecMsg (n : String) : String :=
  "lex: invalid state specifier " ++ q n ++
    ". Must be a tuple (statename,\x27exclusive|inclusive\x27)"

/-- Diagnostic of `src/test/testlex.py:168` (test_lex_state4): a state pair
whose second component is neither inclusive nor exclusive. -/
def badStateTypeMsg (n : String) : String :=
  "lex: state type for state " ++ n ++ " must be " ++ q "inclusive" ++
    " or " ++ q "exclusive"

/-- Diagnostic of `src/test/testlex.py:68` (test_lex_error1): warning for a
module with no `t_error` rule. -/
def noErrorRuleMsg : String := "lex: Warning. no t_error rule is defined."

/-- Diagnostic of `src/test/testlex.py:181` (test_lex_state_noerror): warning
for an exclusive state that declares no error rule of its own. -/
def noErrorForStateMsg (n : String) : String :=
  "lex: Warning. no error rule is defined for exclusive state " ++ q n

/-- Diagnostic of `src/test/testlex.py:226` (test_lex_token_dup): warning for
a token name occurring more than once in the `tokens` list. -/
def dupTokenMsg (t : String) : String :=
  "lex: Warning. Token " ++ q t ++ " multiply defined."

/-! ### String-form rule validation (spec §4.2) -/

/-- A string-form lexing rule as declared by the user: the rule name
(`t_NAME`), the raw pattern text, and the pattern's compiled form. -/
structure StrRule where
  name : String
  raw : List Char
  re : Regex

/-- Whether the raw pattern text holds a pound character that is not
preceded by a backslash escape. -/
def hasUnescapedPound : List Char → Bool
  | [] => false
  | '\\' :: _ :: cs => hasUnescapedPound cs
  | '#' :: _ => true
  | _ :: cs => hasUnescapedPound cs

/-- Modelled from the spec §4.2 and the recorded diagnostics of
`src/test/testlex.py` (test_lex_re2, test_lex_re3): build-time validation of
one string-form rule.  A raw pattern holding an unescaped pound fails to
compile under the verbose-mode host engine (the pound comments out the rest
of the rule's named group, leaving an unbalanced parenthesis), and the
invalid-regex report carries the escaping hint; a pattern that compiles but
matches the empty string is rejected with the empty-match diagnostic. -/
def checkStrRule (r : StrRule) : List String :=
  if hasUnescapedPound r.raw then [invalidRegexMsg r.name, poundHintMsg r.name]
  else if nullable r.re then [emptyMatchMsg r.name]
  else []

/-- Modelled from the spec §7 (Propagation): every rule is validated and the
diagnostics of all of them are accumulated before the build fails. -/
def checkStrRules (rs : List StrRule) : List String :=
  rs.foldr (fun r acc => checkStrRule r ++ acc) []

/-! ### States declaration validation (spec §3 LexState, §7) -/

/-- An element of the `states` declaration as the user wrote it: either a
(name, type) pair or some other value (for example a bare string, as in
`src/tests/lex_state2.py`). -/
inductive StateSpec : Type
  | pair (name statetype : String)
  | plain (s : String)
deriving DecidableEq

/-- Modelled from the spec (LexState: a named state whose type is inclusive
or exclusive) and the diagnostics of `src/test/testlex.py`: validation of a
single state specifier. -/
def checkStateSpec : StateSpec → List String
  | .plain s => [badStateSpecMsg s]
  | .pair n ty =>
      if ty = "inclusive" ∨ ty = "exclusive" then [] else [badStateTypeMsg n]

/-- Modelled from the spec §7 (Propagation): all state specifiers are
validated; one diagnostic is accumulated per offending specifier. -/
def checkStates (specs : List StateSpec) : List String :=
  specs.foldr (fun s acc => checkStateSpec s ++ acc) []

/-! ### Lexer build (spec §4.2, §6) -/

/-- Modelled from the spec §6 (rule declaration surface): the declarations a
module presents to the lexer builder, as far as build-time validation is
concerned.  `errorStates` lists the states for which a `t_<state>_error`
function rule exists (`INITIAL` standing for a plain `t_error`). -/
structure LexDecls where
  tokens : List String
  states : List StateSpec
  ignore : List Char
  strRules : List StrRule
  errorStates : List String

/-- Duplicate-token warnings: one warning per occurrence of a token name
already seen earlier in the list. -/
def dupTokenWarnings : List String → List String → List String
  | _, [] => []
  | seen, t :: ts =>
      (if t ∈ seen then [dupTokenMsg t] else []) ++ dupTokenWarnings (t :: seen) ts

/-- Modelled from the spec §4.2: the `ignore` string must not contain a
literal backslash — a warning, not fatal. -/
def checkIgnore (ign : List Char) : List String :=
  if '\\' ∈ ign then [ignoreBackslashMsg] else []

/-- Warnings for missing error rules: one for the module when no `t_error`
exists, and one per declared exclusive state lacking its own error rule
(spec §4.2 last paragraph). -/
def errorRuleWarnings (m : LexDecls) : List String :=
  (if "INITIAL" ∈ m.errorStates then [] else [noErrorRuleMsg]) ++
    m.states.foldr
      (fun s acc =>
        match s with
        | .pair n "exclusive" =>
            (if n ∈ m.errorStates then [] else [noErrorForStateMsg n]) ++ acc
        | _ => acc)
      []

/-- All warnings a lexer build emits for the module, in order. -/
def lexWarnings (m : LexDecls) : List String :=
  dupTokenWarnings [] m.tokens ++ checkIgnore m.ignore ++ errorRuleWarnings m

/-- All hard errors a lexer build reports for the module: every validation is
run and its diagnostics accumulated (spec §7 Propagation). -/
def lexErrors (m : LexDecls) : List String :=
  checkStates m.states ++ checkStrRules m.strRules

/-- Modelled from the spec §6 (`build_lexer`) and §7: the build runs every
validation, then fails with the batch of accumulated diagnostics when at
least one is an error; the warning channel is suppressed entirely under the
`nowarn` option.  The result pairs the build outcome with the list of
diagnostics actually written to the output channels. -/
def buildLex (nowarn : Bool) (m : LexDecls) : Except (List String) Unit × List String :=
  let errs := lexErrors m
  let warns := if nowarn then [] else lexWarnings m
  if errs = [] then (.ok (), warns) else (.error errs, warns ++ errs)

/-! ### Concrete modules from the test suite -/

/-- Rule `t_PLUS = r'\+?'` of `src/tests/lex_re2.py`: an optional plus sign,
whose regex matches the empty string. -/
def t_PLUS_re2 : StrRule := ⟨"t_PLUS", ['\\', '+', '?'], Regex.opt (.chr '+')⟩

/-- Rule `t_MINUS = r'-'` shared by the small lex test modules. -/
def t_MINUS : StrRule := ⟨"t_MINUS", ['-'], .chr '-'⟩

/-- Rule `t_NUMBER = r'(\d+)'` of `src/tests/lex_re2.py`. -/
def t_NUMBER_str : StrRule := ⟨"t_NUMBER", ['(', '\\', 'd', '+', ')'], digit.rep1⟩

/-- Rule `t_PLUS = r'\+'` of `src/tests/lex_re3.py`. -/
def t_PLUS_str : StrRule := ⟨"t_PLUS", ['\\', '+'], .chr '+'⟩

/-- Rule `t_POUND = r'#'` of `src/tests/lex_re3.py`: the pattern holds a bare
unescaped pound character. -/
def t_POUND : StrRule := ⟨"t_POUND", ['#'], .chr '#'⟩

/-- The string-form rules of `src/tests/lex_re2.py` in declaration order. -/
def lexRe2Rules : List StrRule := [t_PLUS_re2, t_MINUS, t_NUMBER_str]

/-- The string-form rules of `src/tests/lex_re3.py` in declaration order. -/
def lexRe3Rules : List StrRule := [t_PLUS_str, t_MINUS, t_NUMBER_str, t_POUND]

/-- The expected stderr lines of test_lex_re3, copied from
`src/test/testlex.py:121-122`. -/
def lexRe3Expected : List String :=
  [invalidRegexMsg "t_POUND", poundHintMsg "t_POUND"]

/-- The `states = ('comment','example')` declaration of
`src/tests/lex_state2.py`: two bare strings where pairs were expected. -/
def lexState2States : List StateSpec := [.plain "comment", .plain "example"]

/-- The module declarations of `src/tests/lex_ignore2.py`: tokens PLUS,
MINUS, NUMBER; `t_ignore = r' \t'` — a raw string holding a space, a real
backslash and the letter t; a `t_error` function is present. -/
def lexIgnore2Module : LexDecls :=
  { tokens := ["PLUS", "MINUS", "NUMBER"]
    states := []
    ignore := [' ', '\\', 't']
    strRules := [t_PLUS_str, t_MINUS, ⟨"t_NUMBER", ['\\', 'd', '+'], digit.rep1⟩]
    errorStates := ["INITIAL"] }

/-- The module declarations of `src/test/lex_nowarn.py`: the token NUMBER is
listed twice, an exclusive state `foo` is declared, and no `t_error` rule is
defined anywhere. -/
def lexNowarnModule : LexDecls :=
  { tokens := ["PLUS", "MINUS", "NUMBER", "NUMBER"]
    states := [.pair "foo" "exclusive"]
    ignore := [' ', '\t']
    strRules :=
      [t_PLUS_str, t_MINUS, ⟨"t_NUMBER", ['\\', 'd', '+'], digit.rep1⟩,
        ⟨"t_foo_NUMBER", ['\\', 'd', '+'], digit.rep1⟩]
    errorStates := [] }

/-! ### Helper lemmas on rule validation -/

/-- Diagnostics of one rule are among the accumulated diagnostics. -/
theorem checkStrRule_subset_checkStrRules {r : StrRule} {rs : List StrRule}
    (hmem : r ∈ rs) {d : String} (hd : d ∈ checkStrRule r) :
    d ∈ checkStrRules rs := by
  induction rs with
  | nil => cases hmem
  | cons a as ih =>
      rcases List.mem_cons.mp hmem with rfl | h
      · exact List.mem_append.mpr (Or.inl hd)
      · exact List.mem_append.mpr (Or.inr (ih h))

/-- The module declarations of `src/tests/lex_re2.py`: tokens PLUS, MINUS,
NUMBER; a `t_error` function is present; `t_PLUS` matches the empty string. -/
def lexRe2Module : LexDecls :=
  { tokens := ["PLUS", "MINUS", "NUMBER"]
    states := []
    ignore := []
    strRules := lexRe2Rules
    errorStates := ["INITIAL"] }

/-- The module declarations of `src/tests/lex_re3.py`: tokens PLUS, MINUS,
NUMBER, POUND; a `t_error` function is present; `t_POUND` holds a bare
unescaped pound character. -/
def lexRe3Module : LexDecls :=
  { tokens := ["PLUS", "MINUS", "NUMBER", "POUND"]
    states := []
    ignore := []
    strRules := lexRe3Rules
    errorStates := ["INITIAL"] }

/-- C3: a string-form rule whose regular expression matches the empty string
(probed via `nullable`, the empty-input probe) makes the lexer build abort
with a hard error whose message names the offending rule; in particular the
rule `t_PLUS = r'\+?'` of lex_re2 causes such a failure. -/
theorem C3_empty_match_is_fatal (m : LexDecls) (r : StrRule)
    (hmem : r ∈ m.strRules) (hp : hasUnescapedPound r.raw = false)
    (hn : nullable r.re = true) :
    ∃ es, (buildLex false m).1 = .error es ∧ emptyMatchMsg r.name ∈ es := by
  have hd : emptyMatchMsg r.name ∈ checkStrRule r := by
    simp [checkStrRule, hp, hn]
  have hmsg : emptyMatchMsg r.name ∈ checkStrRules m.strRules :=
    checkStrRule_subset_checkStrRules hmem hd
  have herr : emptyMatchMsg r.name ∈ lexErrors m :=
    List.mem_append.mpr (Or.inr hmsg)
  have hne : lexErrors m ≠ [] := by
    intro h
    rw [h] at herr
    cases herr
  refine ⟨lexErrors m, ?_, herr⟩
  simp [buildLex, hne]

/-- C3 witness: instantiated at the lex_re2 module and its `t_PLUS` rule. -/
theorem C3_empty_match_is_fatal_witness :
    ∃ es, (buildLex false lexRe2Module).1 = .error es ∧
      emptyMatchMsg "t_PLUS" ∈ es :=
  C3_empty_match_is_fatal lexRe2Module t_PLUS_re2
    (by simp [lexRe2Module, lexRe2Rules]) (by decide) (by decide)

/-- C7 counterexample: on the lex_re3 module the bare `#` in `t_POUND` is
not reported by the empty-match validation — the build diagnostics are
exactly the two lines recorded in `src/test/testlex.py` (an
invalid-regular-expression error plus the escaping hint), and no empty-match
message for `t_POUND` occurs among them. -/
theorem C7_pound_counterexample :
    checkStrRules lexRe3Rules = lexRe3Expected ∧
      emptyMatchMsg "t_POUND" ∉ checkStrRules lexRe3Rules := by
  constructor
  · rfl
  · decide

/-- C7 (amended): a bare unescaped `#` in a string-form rule's regex is
detected as a sub-case of the invalid-regular-expression validation (the
pattern fails to compile, reported as an unbalanced parenthesis), the build
aborts, and the failure report includes the hint that the `#` in that rule
must be escaped with `\#`. -/
theorem C7_pound_invalid_regex_with_hint (m : LexDecls) (r : StrRule)
    (hmem : r ∈ m.strRules) (hp : hasUnescapedPound r.raw = true) :
    ∃ es, (buildLex false m).1 = .error es ∧
      invalidRegexMsg r.name ∈ es ∧ poundHintMsg r.name ∈ es := by
  have hd1 : invalidRegexMsg r.name ∈ checkStrRule r := by
    simp [checkStrRule, hp]
  have hd2 : poundHintMsg r.name ∈ checkStrRule r := by
    simp [checkStrRule, hp]
  have h1 : invalidRegexMsg r.name ∈ lexErrors m :=
    List.mem_append.mpr (Or.inr (checkStrRule_subset_checkStrRules hmem hd1))
  have h2 : poundHintMsg r.name ∈ lexErrors m :=
    List.mem_append.mpr (Or.inr (checkStrRule_subset_checkStrRules hmem hd2))
  have hne : lexErrors m ≠ [] := by
    intro h
    rw [h] at h1
    cases h1
  refine ⟨lexErrors m, ?_, h1, h2⟩
  simp [buildLex, hne]

/-- C7 witness: instantiated at the lex_re3 module and its `t_POUND` rule. -/
theorem C7_pound_invalid_regex_with_hint_witness :
    ∃ es, (buildLex false lexRe3Module).1 = .error es ∧
      invalidRegexMsg "t_POUND" ∈ es ∧ poundHintMsg "t_POUND" ∈ es :=
  C7_pound_invalid_regex_with_hint lexRe3Module t_POUND
    (by simp [lexRe3Module, lexRe3Rules]) (by decide)

/-- C8: an `ignore` string holding a literal backslash produces the warning
naming `t_ignore`, and the check is not fatal — the build outcome is the
same as it would be with an empty ignore string, and in particular the build
succeeds whenever no validation reports an error. -/
theorem C8_ignore_backslash_warns_not_fatal (m : LexDecls)
    (hbs : '\\' ∈ m.ignore) :
    ignoreBackslashMsg ∈ (buildLex false m).2 ∧
      (buildLex false m).1 = (buildLex false { m with ignore := [] }).1 ∧
      (lexErrors m = [] → buildLex false m = (.ok (), lexWarnings m)) := by
  have hw : ignoreBackslashMsg ∈ lexWarnings m := by
    refine List.mem_append.mpr (Or.inl (List.mem_append.mpr (Or.inr ?_)))
    simp [checkIgnore, hbs]
  refine ⟨?_, ?_, ?_⟩
  · by_cases he : lexErrors m = []
    · simpa [buildLex, he] using hw
    · simp only [buildLex]
      rw [if_neg he]
      exact List.mem_append.mpr (Or.inl hw)
  · have he : lexErrors { m with ignore := [] } = lexErrors m := rfl
    by_cases h : lexErrors m = []
    · simp [buildLex, he, h]
    · simp [buildLex, he, h]
  · intro he
    simp [buildLex, he]

/-- C8 witness: instantiated at the lex_ignore2 module, whose
`t_ignore = r' \t'` holds a real backslash; its build succeeds and prints
exactly the backslash warning. -/
theorem C8_ignore_backslash_warns_not_fatal_witness :
    ignoreBackslashMsg ∈ (buildLex false lexIgnore2Module).2 ∧
      buildLex false lexIgnore2Module = (.ok (), lexWarnings lexIgnore2Module) :=
  ⟨(C8_ignore_backslash_warns_not_fatal lexIgnore2Module (by decide)).1,
    (C8_ignore_backslash_warns_not_fatal lexIgnore2Module (by decide)).2.2
      (by decide)⟩

/-- C9: building with the `nowarn` option writes nothing to the diagnostic
channels and the build succeeds, for every module all of whose validations
pass — even one that triggers several warning conditions at once (the
hypothesis asks for at least three pending warnings, as in lex_nowarn:
a duplicate token, a missing `t_error`, and an exclusive state without an
error rule). -/
theorem C9_nowarn_suppresses_warnings (m : LexDecls)
    (hok : lexErrors m = []) (_hw : 3 ≤ (lexWarnings m).length) :
    buildLex true m = (.ok (), []) := by
  simp [buildLex, hok]

/-- C9 witness: instantiated at the lex_nowarn module (duplicate NUMBER
token, no `t_error`, exclusive state `foo`). -/
theorem C9_nowarn_suppresses_warnings_witness :
    buildLex true lexNowarnModule = (.ok (), []) :=
  C9_nowarn_suppresses_warnings lexNowarnModule (by decide) (by decide)

/-! ### Lexer runtime (spec §3 Token, §4.3 Scan loop) -/

/-- Value carried by a token: the matched lexeme by default, or an object
substituted by a rule action (here: a number, as in the calc lexer). -/
inductive TokVal : Type
  | str (s : String)
  | num (n : Nat)
deriving DecidableEq

/-- Modelled from the spec §3: a token is `(kind, value, line, column)`,
where `line` is 1-based and the position is the 0-based character offset. -/
structure Token where
  kind : String
  value : TokVal
  line : Nat
  pos : Nat
deriving DecidableEq

/-- The mutable per-run lexer state visible to rule actions: the current
line number. -/
structure ScanSt where
  line : Nat
deriving DecidableEq

/-- Modelled from the spec §3 LexRule: a rule is either string-backed (its
match is yielded directly) or function-backed (an action receives the token
and the lexer state, may mutate both, and may suppress the token). -/
inductive LexAction : Type
  | strRule
  | fnRule (f : Token → ScanSt → Option Token × ScanSt)

/-- A compiled lexing rule: the rule name (`t_NAME`), the token kind it
produces (`NAME`), its pattern and its action. -/
structure LexRule where
  name : String
  kind : String
  pattern : Regex
  action : LexAction

/-- Runtime scanning errors (spec §4.3 step 3 and step 5, §7 Runtime). -/
inductive ScanErr : Type
  | unknownTokenKind (rule kind : String)
  | illegalChar (c : Char) (pos : Nat)
deriving DecidableEq

/-- Modelled from the spec §4.3: a built lexer — the declared token
alphabet, the literal characters, the ignore set, and the per-state rules in
master-pattern order (function rules first, then string rules by descending
pattern length). -/
structure Lexer where
  tokens : List String
  literals : List Char
  ignore : List Char
  rules : List LexRule

/-- Modelled from the spec §4.2/§4.3 step 2: matching the master pattern is
trying the rules in master-pattern order and taking the first whose own
longest match is nonempty. -/
def firstMatch (rules : List LexRule) (cs : List Char) : Option (LexRule × Nat) :=
  match rules with
  | [] => none
  | r :: rs =>
      match longestMatch r.pattern cs with
      | some (n + 1) => some (r, n + 1)
      | _ => firstMatch rs cs

/-- Prepend an emitted token to the outcome of the rest of the scan. -/
def withTok (t : Token) : Except ScanErr (List Token) → Except ScanErr (List Token)
  | .ok ts => .ok (t :: ts)
  | .error e => .error e

/-- Modelled from the spec §4.3 (scan loop): one recursive pass over the
input.  Ignored characters advance the position without touching the line;
a string-rule match yields its token directly; a function-rule match runs
the action, whose returned token is checked against the declared token set
(`UnknownTokenKind` on failure) or which may suppress the token; with no
match a declared literal character yields itself, anything else is a
scan-time error.  The fuel argument bounds the recursion; `scan` below
supplies enough for the whole input. -/
def scanAux (lx : Lexer) : Nat → List Char → Nat → ScanSt → Except ScanErr (List Token)
  | 0, _, _, _ => .ok []
  | _ + 1, [], _, _ => .ok []
  | fuel + 1, c :: rest, pos, st =>
      if c ∈ lx.ignore then scanAux lx fuel rest (pos + 1) st
      else
        match firstMatch lx.rules (c :: rest) with
        | some (r, n) =>
            match r.action with
            | .strRule =>
                withTok ⟨r.kind, .str ⟨(c :: rest).take n⟩, st.line, pos⟩
                  (scanAux lx fuel ((c :: rest).drop n) (pos + n) st)
            | .fnRule f =>
                match f ⟨r.kind, .str ⟨(c :: rest).take n⟩, st.line, pos⟩ st with
                | (none, st2) => scanAux lx fuel ((c :: rest).drop n) (pos + n) st2
                | (some t2, st2) =>
                    if t2.kind ∈ lx.tokens then
                      withTok t2 (scanAux lx fuel ((c :: rest).drop n) (pos + n) st2)
                    else .error (.unknownTokenKind r.name t2.kind)
        | none =>
            if c ∈ lx.literals then
              withTok ⟨⟨[c]⟩, .str ⟨[c]⟩, st.line, pos⟩
                (scanAux lx fuel rest (pos + 1) st)
            else .error (.illegalChar c pos)

/-- Scan a whole input starting at position 0, line 1. -/
def scan (lx : Lexer) (cs : List Char) : Except ScanErr (List Token) :=
  scanAux lx (cs.length + 1) cs 0 ⟨1⟩

/-- An action preserves the line counter: it neither advances the lexer's
line state nor rewrites the line stamped on the token it returns. -/
def LexAction.preservesLine : LexAction → Prop
  | .strRule => True
  | .fnRule f =>
      ∀ t s, ((f t s).2.line = s.line) ∧
        ∀ t2, (f t s).1 = some t2 → t2.line = t.line

/-- Inversion for `withTok` producing a successful scan. -/
theorem withTok_ok {t : Token} {r : Except ScanErr (List Token)}
    {ts : List Token} (h : withTok t r = .ok ts) :
    ∃ ts2, r = .ok ts2 ∧ ts = t :: ts2 := by
  cases r with
  | ok ts2 =>
      refine ⟨ts2, rfl, ?_⟩
      simpa [withTok] using h.symm
  | error e => simp [withTok] at h

/-- The rule produced by `firstMatch` is one of the rules tried. -/
theorem firstMatch_mem {rules : List LexRule} {cs : List Char} {r : LexRule}
    {n : Nat} (h : firstMatch rules cs = some (r, n)) : r ∈ rules := by
  induction rules with
  | nil => simp [firstMatch] at h
  | cons a as ih =>
      simp only [firstMatch] at h
      split at h
      · cases h
        exact List.mem_cons_self _ _
      · exact List.mem_cons_of_mem _ (ih h)

/-- When every rule action preserves the line counter, every token of a
successful scan carries the line the scan started in. -/
theorem scanAux_line (lx : Lexer)
    (hpres : ∀ r ∈ lx.rules, r.action.preservesLine) :
    ∀ fuel cs pos st ts, scanAux lx fuel cs pos st = .ok ts →
      ∀ t ∈ ts, t.line = st.line := by
  intro fuel
  induction fuel with
  | zero =>
      intro cs pos st ts h t ht
      simp only [scanAux, Except.ok.injEq] at h
      subst h
      cases ht
  | succ fuel ih =>
      intro cs pos st ts h t ht
      rcases cs with _ | ⟨c, rest⟩
      · simp only [scanAux, Except.ok.injEq] at h
        subst h
        cases ht
      · simp only [scanAux] at h
        by_cases hig : c ∈ lx.ignore
        · rw [if_pos hig] at h
          exact ih rest (pos + 1) st ts h t ht
        · rw [if_neg hig] at h
          split at h
          · rename_i r n hfm
            have hp := hpres r (firstMatch_mem hfm)
            split at h
            · obtain ⟨ts2, hrec, rfl⟩ := withTok_ok h
              rcases List.mem_cons.mp ht with rfl | ht2
              · rfl
              · exact ih _ _ _ _ hrec t ht2
            · rename_i f hact
              rw [hact] at hp
              split at h
              · rename_i st2 hf
                have hline : st2.line = st.line := by
                  have h2 := (hp ⟨r.kind, .str ⟨(c :: rest).take n⟩, st.line, pos⟩ st).1
                  rw [hf] at h2
                  exact h2
                rw [ih _ _ _ _ h t ht, hline]
              · rename_i t2 st2 hf
                have hline : st2.line = st.line := by
                  have h2 := (hp ⟨r.kind, .str ⟨(c :: rest).take n⟩, st.line, pos⟩ st).1
                  rw [hf] at h2
                  exact h2
                by_cases hk : t2.kind ∈ lx.tokens
                · rw [if_pos hk] at h
                  obtain ⟨ts2, hrec, rfl⟩ := withTok_ok h
                  rcases List.mem_cons.mp ht with rfl | ht2
                  · have h3 := (hp ⟨r.kind, .str ⟨(c :: rest).take n⟩, st.line, pos⟩ st).2 t
                    rw [hf] at h3
                    exact h3 rfl
                  · rw [ih _ _ _ _ hrec t ht2, hline]
                · rw [if_neg hk] at h
                  cases h
          · rename_i hfm
            by_cases hlit : c ∈ lx.literals
            · rw [if_pos hlit] at h
              obtain ⟨ts2, hrec, rfl⟩ := withTok_ok h
              rcases List.mem_cons.mp ht with rfl | ht2
              · rfl
              · exact ih _ _ _ _ hrec t ht2
            · rw [if_neg hlit] at h
              cases h

/-! ### Concrete lexers from the test suite -/

/-- Decimal value of a digit string, accumulator style. -/
def natOfDigitsAux (acc : Nat) : List Char → Nat
  | [] => acc
  | c :: cs => natOfDigitsAux (acc * 10 + (c.toNat - 48)) cs

/-- Numeric reading of a token value (`int(t.value)` in the rule actions). -/
def natOfVal : TokVal → Nat
  | .str s => natOfDigitsAux 0 s.data
  | .num n => n

/-- Action of the `t_NUMBER` function rule of the calc lexer
(test_lex_module): replace the lexeme by its integer value. -/
def calcNumberAction (t : Token) (st : ScanSt) : Option Token × ScanSt :=
  (some { t with value := .num (natOfVal t.value) }, st)

/-- The `t_NUMBER` function rule of the calc lexer, pattern `r'\d+'`. -/
def calcNumberRule : LexRule := ⟨"t_NUMBER", "NUMBER", digit.rep1, .fnRule calcNumberAction⟩

/-- The string rule `t_PLUS = r'\+'` of the calc lexer. -/
def calcPlusRule : LexRule := ⟨"t_PLUS", "PLUS", .chr '+', .strRule⟩

/-- The string rule `t_MINUS = r'-'` of the calc lexer. -/
def calcMinusRule : LexRule := ⟨"t_MINUS", "MINUS", .chr '-', .strRule⟩

/-- The calc lexer of test_lex_module: tokens NUMBER, PLUS, MINUS, ignore
set of blank and tab, function rules before string rules. -/
def calcLexer : Lexer :=
  ⟨["NUMBER", "PLUS", "MINUS"], [], [' ', '\t'],
    [calcNumberRule, calcPlusRule, calcMinusRule]⟩

/-- The calc number action neither touches the lexer's line counter nor the
line stamped on the token. -/
theorem calcNumberAction_preservesLine :
    (LexAction.fnRule calcNumberAction).preservesLine := by
  intro t s
  refine ⟨rfl, ?_⟩
  intro t2 h2
  simp only [calcNumberAction] at h2
  cases h2
  rfl

/-- No rule of the calc lexer advances the line counter. -/
theorem calcLexer_preservesLine :
    ∀ r ∈ calcLexer.rules, r.action.preservesLine := by
  intro r hr
  simp only [calcLexer, List.mem_cons, List.not_mem_nil, or_false] at hr
  rcases hr with rfl | rfl | rfl
  · exact calcNumberAction_preservesLine
  · trivial
  · trivial

/-- Equality of scan outcomes is decidable (used to evaluate the model on
concrete inputs). -/
instance : DecidableEq (Except ScanErr (List Token)) := fun a b =>
  match a, b with
  | .ok x, .ok y =>
      if h : x = y then .isTrue (by rw [h]) else
        .isFalse (by intro hh; cases hh; exact h rfl)
  | .error e, .error f =>
      if h : e = f then .isTrue (by rw [h]) else
        .isFalse (by intro hh; cases hh; exact h rfl)
  | .ok _, .error _ => .isFalse (by intro hh; cases hh)
  | .error _, .ok _ => .isFalse (by intro hh; cases hh)

/-- C1 counterexample: scanning the input `"3 + 4"` (with the blanks) under
the calc rules does not produce the claimed positions 0, 1, 2 — ignored
blanks still advance the character offset, so the actual tokens sit at
offsets 0, 2, 4.  The recorded output of test_lex_module with positions
0, 1, 2 belongs to the blank-free input `"3+4"`, as the in-repository
test_lex_state_try (positions 0, 2, 4 for `"3 + 4"`) confirms. -/
theorem C1_positions_counterexample :
    scan calcLexer "3 + 4".data =
      .ok [⟨"NUMBER", .num 3, 1, 0⟩, ⟨"PLUS", .str "+", 1, 2⟩,
        ⟨"NUMBER", .num 4, 1, 4⟩] ∧
      scan calcLexer "3 + 4".data ≠
        .ok [⟨"NUMBER", .num 3, 1, 0⟩, ⟨"PLUS", .str "+", 1, 1⟩,
          ⟨"NUMBER", .num 4, 1, 2⟩] := by
  constructor
  · decide
  · decide

/-- C1 (amended): when no rule action of a lexer ever increments the line
counter, every token of a successful scan keeps the 1-based initial line
number 1; and concretely, scanning `"3+4"` with the calc lexer yields
exactly `(NUMBER,3,1,0)`, `(PLUS,'+',1,1)`, `(NUMBER,4,1,2)` — the recorded
output of test_lex_module, with 0-based character offsets 0, 1, 2. -/
theorem C1_lines_and_positions (lx : Lexer)
    (hpres : ∀ r ∈ lx.rules, r.action.preservesLine)
    (cs : List Char) (ts : List Token) (h : scan lx cs = .ok ts) :
    (∀ t ∈ ts, t.line = 1) ∧
      scan calcLexer "3+4".data =
        .ok [⟨"NUMBER", .num 3, 1, 0⟩, ⟨"PLUS", .str "+", 1, 1⟩,
          ⟨"NUMBER", .num 4, 1, 2⟩] := by
  constructor
  · exact scanAux_line lx hpres (cs.length + 1) cs 0 ⟨1⟩ ts h
  · decide

/-- C1 witness: instantiated at the calc lexer on the input `"3+4"`. -/
theorem C1_lines_and_positions_witness :
    (∀ t ∈ [(⟨"NUMBER", .num 3, 1, 0⟩ : Token), ⟨"PLUS", .str "+", 1, 1⟩,
        ⟨"NUMBER", .num 4, 1, 2⟩], t.line = 1) ∧
      scan calcLexer "3+4".data =
        .ok [⟨"NUMBER", .num 3, 1, 0⟩, ⟨"PLUS", .str "+", 1, 1⟩,
          ⟨"NUMBER", .num 4, 1, 2⟩] :=
  C1_lines_and_positions calcLexer calcLexer_preservesLine "3+4".data
    [⟨"NUMBER", .num 3, 1, 0⟩, ⟨"PLUS", .str "+", 1, 1⟩,
      ⟨"NUMBER", .num 4, 1, 2⟩] (by decide)

/-- Action of the `t_NUMBER` rule of lex_token5: it reassigns the token kind
to `NUM`, which is not in the declared token list. -/
def tok5NumberAction (t : Token) (st : ScanSt) : Option Token × ScanSt :=
  (some { t with kind := "NUM" }, st)

/-- The `t_NUMBER` function rule of lex_token5. -/
def tok5NumberRule : LexRule := ⟨"t_NUMBER", "NUMBER", digit.rep1, .fnRule tok5NumberAction⟩

/-- The lexer of lex_token5: declared tokens PLUS, MINUS, NUMBER, and a
number rule whose action returns the undeclared kind `NUM`. -/
def lexToken5 : Lexer :=
  ⟨["PLUS", "MINUS", "NUMBER"], [], [' ', '\t'],
    [tok5NumberRule, calcPlusRule, calcMinusRule]⟩

/-- C6: at a scan step where a function rule fires, if its action returns a
token whose kind is not in the declared token set the scan stops with the
`UnknownTokenKind` error identifying the rule and the offending kind; if the
returned kind is declared, the token is emitted normally in front of the
rest of the scan. -/
theorem C6_unknown_token_kind (lx : Lexer) (c : Char) (rest : List Char)
    (pos : Nat) (st : ScanSt) (r : LexRule) (n : Nat)
    (f : Token → ScanSt → Option Token × ScanSt) (t2 : Token) (st2 : ScanSt)
    (hig : c ∉ lx.ignore)
    (hfm : firstMatch lx.rules (c :: rest) = some (r, n))
    (hact : r.action = .fnRule f)
    (hf : f ⟨r.kind, .str ⟨(c :: rest).take n⟩, st.line, pos⟩ st = (some t2, st2)) :
    (t2.kind ∉ lx.tokens → ∀ fuel,
        scanAux lx (fuel + 1) (c :: rest) pos st =
          .error (.unknownTokenKind r.name t2.kind)) ∧
      (t2.kind ∈ lx.tokens → ∀ fuel,
        scanAux lx (fuel + 1) (c :: rest) pos st =
          withTok t2 (scanAux lx fuel ((c :: rest).drop n) (pos + n) st2)) := by
  constructor
  · intro hk fuel
    simp only [scanAux, if_neg hig, hfm, hact, hf, if_neg hk]
  · intro hk fuel
    simp only [scanAux, if_neg hig, hfm, hact, hf, if_pos hk]

/-- C6 witness: scanning `"3 + 4"` with the lex_token5 lexer stops at once
with the unknown-token-kind error naming rule `t_NUMBER` and kind `NUM`. -/
theorem C6_unknown_token_kind_witness :
    scan lexToken5 "3 + 4".data =
      .error (.unknownTokenKind "t_NUMBER" "NUM") :=
  (C6_unknown_token_kind lexToken5 '3' " + 4".data 0 ⟨1⟩ tok5NumberRule 1
      tok5NumberAction ⟨"NUM", .str "3", 1, 0⟩ ⟨1⟩ (by decide) rfl rfl rfl).1
    (by decide) 5

/-! ### Grammar model (spec §3, §6) -/

/-- Modelled from the spec §3: a production `lhs : rhs` with an optional
`%prec` marker naming a terminal. -/
structure Production where
  lhs : String
  rhs : List String
  precTerm : Option String
deriving DecidableEq, BEq

/-- Modelled from the spec §3 and §6: the grammar as declared — the token
alphabet, the productions in declaration order (production 0, the synthetic
start, is added separately), the start symbol, and the precedence groups
`(assoc, terms)` listed lowest first. -/
structure Grammar where
  tokens : List String
  prods : List Production
  start : String
  precDecls : List (String × List String)
deriving DecidableEq

/-- The nonterminals: symbols defined by at least one production, in first
definition order, deduplicated. -/
def nonterminals (g : Grammar) : List String :=
  (g.prods.map (·.lhs)).dedup

/-! ### Production specification parsing (spec §6 rule declaration surface) -/

/-- One line of an attached specification string, with the source position
the diagnostics report. -/
structure SpecLine where
  file : String
  line : Nat
  text : String
deriving DecidableEq

/-- Accumulate blank-separated words over the characters of a line; the
first argument is the reversed current word. -/
def splitWords (cur : List Char) : List Char → List String
  | [] => if cur.isEmpty then [] else [String.mk cur.reverse]
  | c :: cs =>
      if c = ' ' then
        if cur.isEmpty then splitWords [] cs
        else String.mk cur.reverse :: splitWords [] cs
      else splitWords (c :: cur) cs

/-- Split a specification line into whitespace-separated words. -/
def specWords (s : String) : List String :=
  splitWords [] s.data

/-- Diagnostic of `src/test/testyacc.py:84` (test_yacc_badrule): a
specification line whose second word is not the colon. -/
def expectedColonMsg (file : String) (line : Nat) : String :=
  file ++ ":" ++ toString line ++ ": Syntax error. Expected " ++ q ":"

/-- Diagnostic of `src/test/testyacc.py:85` (test_yacc_badrule): a
malformed specification line inside the rule named `n`. -/
def syntaxErrorInRuleMsg (file : String) (line : Nat) (n : String) : String :=
  file ++ ":" ++ toString line ++ ": Syntax error in rule " ++ q n

/-- Split the words of an alternative list on the `|` separator. -/
def splitAlts (ws : List String) : List (List String) :=
  match ws with
  | [] => [[]]
  | w :: rest =>
      let tail := splitAlts rest
      if w = "|" then [] :: tail
      else
        match tail with
        | [] => [[w]]
        | alt :: alts => (w :: alt) :: alts

/-- Strip a trailing `%prec TERM` marker off one alternative. -/
def extractPrec : List String → List String × Option String
  | [] => ([], none)
  | ["%prec", t] => ([], some t)
  | w :: ws =>
      let (as, p) := extractPrec ws
      (w :: as, p)

/-- Modelled from the spec §6: parse one specification line given the rule
name currently open for `|` continuations; returns the diagnostics, the
productions, and the rule name left open. -/
def parseSpecLine (cur : Option String) (l : SpecLine) :
    List String × List Production × Option String :=
  match specWords l.text with
  | [] => ([], [], cur)
  | [x] => ([syntaxErrorInRuleMsg l.file l.line x], [], cur)
  | x :: y :: ws =>
      if x = "|" then
        match cur with
        | none => ([syntaxErrorInRuleMsg l.file l.line x], [], none)
        | some lhs =>
            ([], (splitAlts (y :: ws)).map
              (fun alt => let (rhs, p) := extractPrec alt; ⟨lhs, rhs, p⟩), cur)
      else if y = ":" then
        ([], (splitAlts ws).map
          (fun alt => let (rhs, p) := extractPrec alt; ⟨x, rhs, p⟩), some x)
      else ([expectedColonMsg l.file l.line], [], cur)

/-- Parse the lines of one attached specification string. -/
def parseSpecLines (cur : Option String) :
    List SpecLine → List String × List Production
  | [] => ([], [])
  | l :: rest =>
      let (es, ps, cur2) := parseSpecLine cur l
      let (es2, ps2) := parseSpecLines cur2 rest
      (es ++ es2, ps ++ ps2)

/-- Modelled from the spec §6/§9: a grammar callback as registered — its
docstring and the optional explicit specification attached by the `SPEC`
decorator.  When the `SPEC` attribute is present it carries the production
specification and the docstring is free for ordinary documentation. -/
structure RuleDecl where
  docstring : List SpecLine
  specAttr : Option (List SpecLine)
deriving DecidableEq

/-- The specification string the builder reads from a declaration: the
`SPEC` payload when present, the docstring otherwise. -/
def effectiveSpec (d : RuleDecl) : List SpecLine :=
  d.specAttr.getD d.docstring

/-- Modelled from the spec §7 (Propagation): every declaration is parsed and
the diagnostics of all of them are accumulated. -/
def parseDecls (ds : List RuleDecl) : List String × List Production :=
  ds.foldr
    (fun d acc =>
      let (es, ps) := parseSpecLines none (effectiveSpec d)
      (es ++ acc.1, ps ++ acc.2))
    ([], [])

/-! ### Grammar validation (spec §4.8) -/

/-- Diagnostic of `src/test/testyacc.py:140` (test_yacc_inf): fatal error for
a nonterminal that derives no terminal-only string. -/
def infRecMsg (n : String) : String :=
  "yacc: Infinite recursion detected for symbol " ++ q n ++ "."

/-- Diagnostic for a right-hand-side symbol that is neither a declared token
nor defined by any production. -/
def undefSymbolMsg (n : String) : String :=
  "yacc: Symbol " ++ q n ++ " used, but not defined as a token or a rule"

/-- Iterate a function a bounded number of times, stopping early at a
fixpoint. -/
def fixIter {α : Type} [BEq α] (f : α → α) : Nat → α → α
  | 0, x => x
  | n + 1, x =>
      let y := f x
      if y == x then x else fixIter f n y

/-- One round of the terminating-symbols fixpoint: add every lhs one of
whose productions has all rhs symbols already known to derive terminal
strings (tokens derive themselves). -/
def termStep (g : Grammar) (acc : List String) : List String :=
  g.prods.foldl
    (fun acc p =>
      if acc.contains p.lhs then acc
      else if p.rhs.all (fun x => g.tokens.contains x || acc.contains x) then
        acc ++ [p.lhs]
      else acc)
    acc

/-- Modelled from the spec §4.8: the set of nonterminals that derive a
terminal-only string in some number of steps, by fixpoint iteration. -/
def terminable (g : Grammar) : List String :=
  fixIter (termStep g) (g.prods.length + 1) []

/-- Semantic derivability of a terminal-only string from a symbol: a token
derives itself; a nonterminal derives one through any of its productions
once every rhs symbol does. -/
inductive TermDeriv (g : Grammar) : String → Prop
  | tok {s : String} : s ∈ g.tokens → TermDeriv g s
  | prod {p : Production} : p ∈ g.prods → (∀ x ∈ p.rhs, TermDeriv g x) →
      TermDeriv g p.lhs

/-- Modelled from the spec §4.8: one fatal diagnostic per nonterminal outside
the terminable set. -/
def infiniteRecursionErrors (g : Grammar) : List String :=
  ((nonterminals g).filter (fun nt => ¬ (terminable g).contains nt)).map infRecMsg

/-- Undefined-symbol errors: every rhs symbol must be a declared token, the
`error` recovery marker, or a defined nonterminal (spec §3 invariants). -/
def undefinedSymbolErrors (g : Grammar) : List String :=
  (g.prods.foldr (fun p acc => p.rhs ++ acc) []).filterMap
    (fun x =>
      if g.tokens.contains x || x = "error" || (g.prods.map (·.lhs)).contains x
      then none else some (undefSymbolMsg x))

/-- All fatal grammar errors, accumulated across the validations
(spec §7 Propagation). -/
def grammarErrors (g : Grammar) : List String :=
  undefinedSymbolErrors g ++ infiniteRecursionErrors g

/-! ### LR(0) construction (spec §4.4) -/

/-- The augmented start symbol. -/
def startSym : String := "S\x27"

/-- Modelled from the spec §3: production 0 is the synthetic
`S' → S $end`; user productions follow in declaration order, numbered
from 1. -/
def augProds (g : Grammar) : List Production :=
  ⟨startSym, [g.start, "$end"], none⟩ :: g.prods

/-- The augmented production of a given number. -/
def getProd (g : Grammar) (i : Nat) : Production :=
  (augProds g).getD i ⟨"", [], none⟩

/-- An LR item `(production, dot)` (spec §3). -/
abbrev Item := Nat × Nat

/-- The grammar symbol right after the item's dot, if any. -/
def itemNextSym (g : Grammar) (it : Item) : Option String :=
  ((getProd g it.1).rhs.drop it.2).head?

/-- The rhs tail after the symbol following the dot. -/
def itemBeta (g : Grammar) (it : Item) : List String :=
  (getProd g it.1).rhs.drop (it.2 + 1)

/-- Numbers of the augmented productions whose lhs is `b`. -/
def prodIdxsOf (g : Grammar) (b : String) : List Nat :=
  (List.range (augProds g).length).filter (fun i => (getProd g i).lhs = b)

/-- Whether a symbol is defined by some user production. -/
def isNonterm (g : Grammar) (b : String) : Bool :=
  (g.prods.map (·.lhs)).contains b

/-- Total number of distinct items of the augmented grammar — a bound for
the fixpoint iterations below. -/
def totalItems (g : Grammar) : Nat :=
  (augProds g).foldl (fun n p => n + p.rhs.length + 1) 0

/-- One round of LR(0) closure (spec §4.4): for every item with a
nonterminal `B` after the dot, add `B → · γ` for every production of `B`. -/
def closureStep (g : Grammar) (I : List Item) : List Item :=
  I.foldl
    (fun acc it =>
      match itemNextSym g it with
      | some b =>
          if isNonterm g b then
            (prodIdxsOf g b).foldl
              (fun acc2 j =>
                if acc2.contains (j, 0) then acc2 else acc2 ++ [(j, 0)])
              acc
          else acc
      | none => acc)
    I

/-- LR(0) closure of an item set, iterated to fixpoint. -/
def closure (g : Grammar) (I : List Item) : List Item :=
  fixIter (closureStep g) (totalItems g + 1) I

/-- Kernel of the state reached from the (closed) set `I` on symbol `x`
(spec §4.4 GOTO): all items of `I` with `x` after the dot, advanced. -/
def gotoKernel (g : Grammar) (I : List Item) (x : String) : List Item :=
  I.filterMap
    (fun it => if itemNextSym g it = some x then some (it.1, it.2 + 1) else none)

/-- Order used to canonicalise kernels for state identity comparison. -/
def itemLe (a b : Item) : Bool :=
  a.1 < b.1 || (a.1 == b.1 && a.2 ≤ b.2)

/-- Sorted duplicate-free insertion of an item. -/
def insItem (a : Item) : List Item → List Item
  | [] => [a]
  | b :: bs =>
      if a == b then b :: bs
      else if itemLe a b then a :: b :: bs
      else b :: insItem a bs

/-- Canonical (sorted, deduplicated) form of a kernel; kernels are the state
identity in the LALR-ready construction (spec §4.4). -/
def canonKernel (I : List Item) : List Item :=
  I.foldl (fun acc it => insItem it acc) []

/-- The symbols on which the closed set `I` has outgoing transitions;
`$end` is never shifted (the accept action handles it, spec §4.6). -/
def nextSyms (g : Grammar) (I : List Item) : List String :=
  ((I.filterMap (itemNextSym g)).dedup).filter (· ≠ "$end")

/-- The LR(0) automaton: state kernels in first-encounter order, and the
GOTO transitions on grammar symbols. -/
structure LR0Auto where
  kernels : List (List Item)
  trans : List ((Nat × String) × Nat)

/-- Look up or append the state with the given canonical kernel. -/
def addState (a : LR0Auto) (K : List Item) : LR0Auto × Nat × Bool :=
  match a.kernels.findIdx? (fun k2 => k2 == K) with
  | some j => (a, j, false)
  | none => ({ a with kernels := a.kernels ++ [K] }, a.kernels.length, true)

/-- Expand one state: compute its transitions, appending any kernel not yet
numbered (spec §4.4 canonical construction). -/
def stateRound (g : Grammar) (a : LR0Auto) (i : Nat) : LR0Auto × List Nat :=
  let I := closure g (a.kernels.getD i [])
  (nextSyms g I).foldl
    (fun ab x =>
      let K2 := canonKernel (gotoKernel g I x)
      let (a2, j, isNew) := addState ab.1 K2
      ({ a2 with trans := a2.trans ++ [((i, x), j)] },
        if isNew then ab.2 ++ [j] else ab.2))
    (a, [])

/-- Worklist construction of all states. -/
def statesLoop (g : Grammar) : Nat → List Nat → LR0Auto → LR0Auto
  | 0, _, a => a
  | _ + 1, [], a => a
  | fuel + 1, i :: ws, a =>
      let r := stateRound g a i
      statesLoop g fuel (ws ++ r.2) r.1

/-- The canonical LR(0) automaton, state 0 seeded with `S' → · S $end`
(spec §4.4); the fuel bounds the number of distinct kernels. -/
def buildStates (g : Grammar) : LR0Auto :=
  statesLoop g (2 ^ totalItems g) [0] ⟨[[(0, 0)]], []⟩

/-- Transition of the automaton from state `i` on symbol `x`. -/
def lookupTrans (a : LR0Auto) (i : Nat) (x : String) : Option Nat :=
  (a.trans.find? (fun e => e.1 == (i, x))).map (·.2)

/-! ### FIRST, nullability and LALR(1) lookaheads (spec §4.5) -/

/-- Union of symbol lists, keeping the left list's order. -/
def unionL (a b : List String) : List String :=
  a ++ b.filter (fun x => !(a.contains x))

/-- Lookup in an association list mapping keys to symbol sets. -/
def lookupAssoc {κ : Type} [BEq κ] (m : List (κ × List String)) (k : κ) :
    List String :=
  ((m.find? (fun e => e.1 == k)).map (·.2)).getD []

/-- Merge a symbol set into an association list entry. -/
def mergeAssoc {κ : Type} [BEq κ] (m : List (κ × List String)) (k : κ)
    (v : List String) : List (κ × List String) :=
  match m with
  | [] => [(k, v)]
  | e :: es => if e.1 == k then (e.1, unionL e.2 v) :: es else e :: mergeAssoc es k v

/-- Modelled from the spec §4.5: a nonterminal is nullable iff it has a
production whose rhs is entirely nullable; computed by fixpoint. -/
def nullableNTs (g : Grammar) : List String :=
  fixIter
    (fun acc =>
      g.prods.foldl
        (fun acc p =>
          if acc.contains p.lhs then acc
          else if p.rhs.all (fun x => acc.contains x) then acc ++ [p.lhs]
          else acc)
        acc)
    (g.prods.length + 1) []

/-- FIRST of a symbol sequence under the current FIRST approximation. -/
def firstOfSeq (g : Grammar) (nul : List String)
    (m : List (String × List String)) : List String → List String
  | [] => []
  | x :: rest =>
      if g.tokens.contains x || x == "error" || x == "$end" then [x]
      else
        let f := lookupAssoc m x
        if nul.contains x then unionL f (firstOfSeq g nul m rest) else f

/-- One fixpoint round of the FIRST-set computation over the user
productions. -/
def firstStep (g : Grammar) (nul : List String)
    (m : List (String × List String)) : List (String × List String) :=
  g.prods.foldl (fun m p => mergeAssoc m p.lhs (firstOfSeq g nul m p.rhs)) m

/-- FIRST sets of all nonterminals (spec §4.5). -/
def firstMap (g : Grammar) : List (String × List String) :=
  fixIter (firstStep g (nullableNTs g))
    ((g.prods.length + 1) * (g.tokens.length + 2))
    ((nonterminals g).map (fun nt => (nt, [])))

/-- FIRST of a sequence followed by one lookahead symbol (which may be the
propagation sentinel `#` or `$end`). -/
def firstSeqLA (g : Grammar) (nul : List String)
    (firsts : List (String × List String)) : List String → String → List String
  | [], a => [a]
  | x :: rest, a =>
      if g.tokens.contains x || x == "error" || x == "$end" then [x]
      else
        let f := lookupAssoc firsts x
        if nul.contains x then unionL f (firstSeqLA g nul firsts rest a) else f

/-- One round of closure with lookaheads (spec §4.5): from `A → α · B β`
with lookahead set `las`, every production `B → · γ` obtains the lookaheads
`FIRST(β a)` for each `a` in `las`. -/
def closureLAStep (g : Grammar) (nul : List String)
    (firsts : List (String × List String))
    (items : List (Item × List String)) : List (Item × List String) :=
  items.foldl
    (fun acc e =>
      match itemNextSym g e.1 with
      | some b =>
          if isNonterm g b then
            let beta := itemBeta g e.1
            let newLas :=
              e.2.foldl (fun u a2 => unionL u (firstSeqLA g nul firsts beta a2)) []
            (prodIdxsOf g b).foldl (fun acc2 j => mergeAssoc acc2 (j, 0) newLas) acc
          else acc
      | none => acc)
    items

/-- Closure with lookaheads, iterated to fixpoint. -/
def closureLA (g : Grammar) (nul : List String)
    (firsts : List (String × List String)) (seed : List (Item × List String)) :
    List (Item × List String) :=
  fixIter (closureLAStep g nul firsts)
    (totalItems g * (g.tokens.length + 3) + 1) seed

/-- A kernel item addressed by its state. -/
abbrev KItem := Nat × Item

/-- Spontaneously generated lookaheads and propagation links. -/
structure LAData where
  la : List (KItem × List String)
  links : List (KItem × KItem)

/-- Modelled from the spec §4.5: probe every kernel item with the sentinel
`#`; closure lookaheads other than `#` are spontaneously generated for the
successor kernel item, `#` itself records a propagation link.  The LA set of
the augmented start item in state 0 is seeded with `$end`. -/
def spontAndLinks (g : Grammar) (nul : List String)
    (firsts : List (String × List String)) (a : LR0Auto) : LAData :=
  (List.range a.kernels.length).foldl
    (fun d i =>
      (a.kernels.getD i []).foldl
        (fun d k =>
          (closureLA g nul firsts [(k, ["#"])]).foldl
            (fun d e =>
              match itemNextSym g e.1 with
              | some x =>
                  if x == "$end" then d
                  else
                    match lookupTrans a i x with
                    | some j =>
                        e.2.foldl
                          (fun d a2 =>
                            if a2 == "#" then
                              { d with links := d.links ++ [((i, k), (j, (e.1.1, e.1.2 + 1)))] }
                            else
                              { d with la := mergeAssoc d.la (j, (e.1.1, e.1.2 + 1)) [a2] })
                          d
                    | none => d
              | none => d)
            d)
        d)
    ⟨[(((0 : Nat), ((0 : Nat), (0 : Nat))), ["$end"])], []⟩

/-- One propagation round along the links. -/
def propStep (links : List (KItem × KItem)) (la : List (KItem × List String)) :
    List (KItem × List String) :=
  links.foldl (fun la e => mergeAssoc la e.2 (lookupAssoc la e.1)) la

/-- The LALR(1) lookahead sets of all kernel items: spontaneous generation
followed by propagation to fixpoint (spec §4.5). -/
def laTable (g : Grammar) (nul : List String)
    (firsts : List (String × List String)) (a : LR0Auto) :
    List (KItem × List String) :=
  let d := spontAndLinks g nul firsts a
  fixIter (propStep d.links)
    ((a.kernels.length + 1) * (totalItems g + 1) * (g.tokens.length + 2))
    d.la

/-! ### Table builder (spec §4.6) -/

/-- A parsing action. -/
inductive PAct : Type
  | shiftA (j : Nat)
  | reduceA (p : Nat)
  | acceptA
  | errA
deriving DecidableEq, BEq

/-- Precedence of a terminal from the declared groups, level 1 the lowest;
level 0 means no precedence (spec §3 Precedence). -/
def precOfAux (t : String) : List (String × List String) → Nat → Nat × String
  | [], _ => (0, "right")
  | e :: rest, lvl =>
      if e.2.contains t then (lvl, e.1) else precOfAux t rest (lvl + 1)

/-- Precedence `(level, assoc)` of a terminal. -/
def precOf (g : Grammar) (t : String) : Nat × String :=
  precOfAux t g.precDecls 1

/-- The rightmost terminal of a rhs, if any. -/
def rightmostTerm (g : Grammar) : List String → Option String
  | [] => none
  | x :: rest =>
      match rightmostTerm g rest with
      | some t => some t
      | none => if g.tokens.contains x then some x else none

/-- Modelled from the spec §3: a production's precedence is its `%prec`
marker when given, else that of the rightmost terminal of its rhs. -/
def prodPrec (g : Grammar) (p : Production) : Nat × String :=
  match p.precTerm with
  | some t => precOf g t
  | none =>
      match rightmostTerm g p.rhs with
      | some t => precOf g t
      | none => (0, "right")

/-- ACTION and GOTO tables together with the conflict totals. -/
structure Tables where
  action : List ((Nat × String) × PAct)
  gotoTbl : List ((Nat × String) × Nat)
  sr : Nat
  rr : Nat

/-- Entry update in an action table. -/
def updAct (m : List ((Nat × String) × PAct)) (k : Nat × String) (v : PAct) :
    List ((Nat × String) × PAct) :=
  match m with
  | [] => [(k, v)]
  | e :: es => if e.1 == k then (k, v) :: es else e :: updAct es k v

/-- Entry lookup in an action table. -/
def getAct (m : List ((Nat × String) × PAct)) (k : Nat × String) : Option PAct :=
  (m.find? (fun e => e.1 == k)).map (·.2)

/-- Propose a shift; shifts never displace an existing entry. -/
def proposeShift (t : Tables) (i : Nat) (x : String) (j : Nat) : Tables :=
  match getAct t.action (i, x) with
  | none => { t with action := updAct t.action (i, x) (.shiftA j) }
  | some _ => t

/-- Modelled from the spec §4.6 conflict resolution: a reduce proposal on a
cell already holding a shift compares the precedences — both positive:
higher level wins, equal level decided by associativity (`left` reduce,
`right` shift, `nonassoc` error entry); any level 0: default shift and one
counted shift/reduce conflict.  Colliding reduces keep the lower production
number and count one reduce/reduce conflict. -/
def proposeReduce (g : Grammar) (t : Tables) (i : Nat) (x : String) (p : Nat) :
    Tables :=
  match getAct t.action (i, x) with
  | none => { t with action := updAct t.action (i, x) (.reduceA p) }
  | some (.shiftA _) =>
      let pp := prodPrec g (getProd g p)
      let ap := precOf g x
      if pp.1 > 0 && ap.1 > 0 then
        if pp.1 > ap.1 then { t with action := updAct t.action (i, x) (.reduceA p) }
        else if pp.1 < ap.1 then t
        else if ap.2 == "left" then
          { t with action := updAct t.action (i, x) (.reduceA p) }
        else if ap.2 == "nonassoc" then
          { t with action := updAct t.action (i, x) .errA }
        else t
      else { t with sr := t.sr + 1 }
  | some (.reduceA p2) =>
      { t with action := updAct t.action (i, x) (.reduceA (min p p2)),
               rr := t.rr + 1 }
  | some .acceptA => t
  | some .errA => t

/-- The terminal alphabet as the table builder sees it: the declared tokens
plus the `error` recovery marker. -/
def terminalsOf (g : Grammar) : List String :=
  g.tokens ++ ["error"]

/-- Modelled from the spec §4.6: emit ACTION and GOTO for every state —
shifts from items with a terminal after the dot, accept from
`S' → S · $end`, reduces from complete items over their LALR lookahead
sets with conflicts resolved and counted, GOTO from nonterminal
transitions. -/
def buildTables (g : Grammar) : Tables :=
  let a := buildStates g
  let nul := nullableNTs g
  let firsts := firstMap g
  let la := laTable g nul firsts a
  (List.range a.kernels.length).foldl
    (fun t i =>
      let K := a.kernels.getD i []
      let I := closure g K
      let t := I.foldl
        (fun t it =>
          match itemNextSym g it with
          | some x =>
              if (terminalsOf g).contains x then
                match lookupTrans a i x with
                | some j => proposeShift t i x j
                | none => t
              else t
          | none => t)
        t
      let t :=
        if I.contains ((0 : Nat), (1 : Nat)) then
          { t with action := updAct t.action (i, "$end") .acceptA }
        else t
      let t :=
        (closureLA g nul firsts (K.map (fun k => (k, lookupAssoc la (i, k))))).foldl
          (fun t e =>
            match itemNextSym g e.1 with
            | some _ => t
            | none =>
                if e.1.1 == 0 then t
                else
                  e.2.foldl
                    (fun t x => if x == "#" then t else proposeReduce g t i x e.1.1)
                    t)
          t
      (nextSyms g I).foldl
        (fun t x =>
          if isNonterm g x then
            match lookupTrans a i x with
            | some j => { t with gotoTbl := t.gotoTbl ++ [((i, x), j)] }
            | none => t
          else t)
        t)
    ⟨[], [], 0, 0⟩

/-- Conflict report of `src/test/testyacc.py:217,230` — singular for one
conflict, plural otherwise. -/
def srConflictMsg (n : Nat) : String :=
  "yacc: " ++ toString n ++ " shift/reduce conflict" ++ (if n == 1 then "" else "s")

/-- Reduce/reduce counterpart of the conflict report. -/
def rrConflictMsg (n : Nat) : String :=
  "yacc: " ++ toString n ++ " reduce/reduce conflict" ++ (if n == 1 then "" else "s")

/-- The conflict totals reported as warnings after table construction
(spec §4.6 last paragraph). -/
def conflictWarnings (t : Tables) : List String :=
  (if t.sr > 0 then [srConflictMsg t.sr] else []) ++
    (if t.rr > 0 then [rrConflictMsg t.rr] else [])

/-- Modelled from the spec §6 (`build_parser`) and §7: the validations run
first and their accumulated diagnostics fail the build; otherwise the tables
are always produced, with the conflict totals as warnings. -/
def buildParser (g : Grammar) : Except (List String) (Tables × List String) :=
  let errs := grammarErrors g
  if errs = [] then .ok (buildTables g, conflictWarnings (buildTables g))
  else .error errs

/-! ### Concrete grammars from the test suite -/

/-- The grammar of the yacc_inf scenario (test_yacc_inf): a calc fragment
whose `expression` productions are all recursive, so neither `expression`
nor `statement` derives a terminal-only string; NUMBER is declared but
unused. -/
def yaccInfGrammar : Grammar :=
  { tokens := ["NUMBER", "PLUS", "MINUS"]
    prods := [⟨"statement", ["expression"], none⟩,
              ⟨"expression", ["expression", "PLUS", "expression"], none⟩,
              ⟨"expression", ["expression", "MINUS", "expression"], none⟩]
    start := "statement"
    precDecls := [] }

/-- The grammar of the yacc_sr scenario (test_yacc_sr): the calc grammar
with no precedence declarations, whose recorded build warning is
`yacc: 20 shift/reduce conflicts`. -/
def yaccSRGrammar : Grammar :=
  { tokens := ["NAME", "NUMBER", "PLUS", "MINUS", "TIMES", "DIVIDE",
               "EQUALS", "LPAREN", "RPAREN"]
    prods := [⟨"statement", ["NAME", "EQUALS", "expression"], none⟩,
              ⟨"statement", ["expression"], none⟩,
              ⟨"expression", ["expression", "PLUS", "expression"], none⟩,
              ⟨"expression", ["expression", "MINUS", "expression"], none⟩,
              ⟨"expression", ["expression", "TIMES", "expression"], none⟩,
              ⟨"expression", ["expression", "DIVIDE", "expression"], none⟩,
              ⟨"expression", ["MINUS", "expression"], none⟩,
              ⟨"expression", ["LPAREN", "expression", "RPAREN"], none⟩,
              ⟨"expression", ["NUMBER"], none⟩,
              ⟨"expression", ["NAME"], none⟩]
    start := "statement"
    precDecls := [] }

/-- A minimal grammar with one reduce/reduce conflict (the yacc_rr scenario
of test_yacc_rr records `yacc: 1 reduce/reduce conflict`): two nonterminals
deriving the same terminal. -/
def yaccRRGrammar : Grammar :=
  { tokens := ["A"]
    prods := [⟨"s", ["b"], none⟩, ⟨"s", ["c"], none⟩,
              ⟨"b", ["A"], none⟩, ⟨"c", ["A"], none⟩]
    start := "s"
    precDecls := [] }

/-! ### Soundness of the terminability fixpoint -/

/-- One `termStep` round only adds symbols that derive terminal strings. -/
theorem termStep_sound (g : Grammar) :
    ∀ (ps : List Production) (acc : List String), (∀ p ∈ ps, p ∈ g.prods) →
      (∀ y ∈ acc, TermDeriv g y) →
      ∀ y ∈ ps.foldl
        (fun acc p =>
          if acc.contains p.lhs then acc
          else if p.rhs.all (fun x => g.tokens.contains x || acc.contains x) then
            acc ++ [p.lhs]
          else acc)
        acc, TermDeriv g y := by
  intro ps
  induction ps with
  | nil => intro acc _ hacc y hy; exact hacc y hy
  | cons p rest ih =>
      intro acc hps hacc y hy
      rw [List.foldl_cons] at hy
      refine ih _ (fun p2 h2 => hps p2 (List.mem_cons_of_mem _ h2)) ?_ y hy
      split
      · exact hacc
      · split
        · rename_i hc2
          intro z hz
          rcases List.mem_append.mp hz with hz2 | hz2
          · exact hacc z hz2
          · have hzl : z = p.lhs := by simpa using hz2
            subst hzl
            refine TermDeriv.prod (hps p (List.mem_cons_self _ _)) ?_
            intro x hx
            have hx2 := List.all_eq_true.mp hc2 x hx
            have hx3 : x ∈ g.tokens ∨ x ∈ acc := by simpa using hx2
            rcases hx3 with hx3 | hx3
            · exact TermDeriv.tok hx3
            · exact hacc x hx3
        · exact hacc

/-- Bounded fixpoint iteration preserves any invariant of its step. -/
theorem fixIter_inv {α : Type} [BEq α] {P : α → Prop} (f : α → α)
    (hstep : ∀ x, P x → P (f x)) :
    ∀ fuel x, P x → P (fixIter f fuel x) := by
  intro fuel
  induction fuel with
  | zero => intro x hx; exact hx
  | succ n ih =>
      intro x hx
      simp only [fixIter]
      by_cases h : f x == x
      · simpa [h] using hx
      · simpa [h] using ih (f x) (hstep x hx)

/-- Every symbol the fixpoint declares terminable really derives a
terminal-only string. -/
theorem terminable_sound (g : Grammar) :
    ∀ y ∈ terminable g, TermDeriv g y := by
  have h := fixIter_inv (P := fun acc => ∀ y ∈ acc, TermDeriv g y)
    (termStep g)
    (fun acc hacc => termStep_sound g g.prods acc (fun _ hp => hp) hacc)
    (g.prods.length + 1) [] (by intro y hy; cases hy)
  exact h

/-- No symbol of the yacc_inf grammar other than its tokens derives a
terminal-only string. -/
theorem yaccInf_termDeriv_is_token :
    ∀ s, TermDeriv yaccInfGrammar s → s ∈ yaccInfGrammar.tokens := by
  intro s h
  induction h with
  | tok h2 => exact h2
  | @prod p hp _hall ih =>
      exfalso
      simp only [yaccInfGrammar, List.mem_cons, List.not_mem_nil, or_false] at hp
      rcases hp with rfl | rfl | rfl
      · exact absurd (ih "expression" (by simp)) (by decide)
      · exact absurd (ih "expression" (by simp)) (by decide)
      · exact absurd (ih "expression" (by simp)) (by decide)

/-- C4: a nonterminal from which no terminal-only string is derivable in any
number of steps makes parser construction fail, the batch of fatal errors
containing the infinite-recursion report for that nonterminal; the reports
are issued once per such nonterminal — on the yacc_inf grammar they are
exactly the two recorded lines, for `statement` and for `expression`. -/
theorem C4_infinite_recursion_fatal (g : Grammar) (nt : String)
    (hnt : nt ∈ nonterminals g) (hnd : ¬ TermDeriv g nt) :
    (∃ es, buildParser g = .error es ∧ infRecMsg nt ∈ es) ∧
      infiniteRecursionErrors yaccInfGrammar =
        [infRecMsg "statement", infRecMsg "expression"] := by
  constructor
  · have hterm : nt ∉ terminable g := fun hmem => hnd (terminable_sound g nt hmem)
    have hmem : infRecMsg nt ∈ infiniteRecursionErrors g := by
      refine List.mem_map_of_mem infRecMsg (List.mem_filter.mpr ⟨hnt, ?_⟩)
      simpa using hterm
    have herr : infRecMsg nt ∈ grammarErrors g :=
      List.mem_append.mpr (Or.inr hmem)
    have hne : grammarErrors g ≠ [] := by
      intro h
      rw [h] at herr
      cases herr
    refine ⟨grammarErrors g, ?_, herr⟩
    simp [buildParser, hne]
  · decide

/-- C4 witness: instantiated at the yacc_inf grammar and its nonterminal
`expression`. -/
theorem C4_infinite_recursion_fatal_witness :
    (∃ es, buildParser yaccInfGrammar = .error es ∧
      infRecMsg "expression" ∈ es) ∧
      infiniteRecursionErrors yaccInfGrammar =
        [infRecMsg "statement", infRecMsg "expression"] :=
  C4_infinite_recursion_fatal yaccInfGrammar "expression" (by decide)
    (fun h => absurd (yaccInf_termDeriv_is_token "expression" h) (by decide))

set_option maxRecDepth 100000

/-- C2: for every grammar that passes the grammar validations, the build
completes and returns the ACTION and GOTO tables no matter how many
shift/reduce or reduce/reduce conflicts table construction met; each
positive conflict total is reported through the warning channel (never as an
error); and on the yacc_sr grammar the counted total is exactly 20
shift/reduce conflicts, on the reduce/reduce grammar exactly 1, matching
the recorded warnings of `src/test/testyacc.py`. -/
theorem C2_conflicts_are_warnings (g : Grammar) (hok : grammarErrors g = []) :
    buildParser g = .ok (buildTables g, conflictWarnings (buildTables g)) ∧
      ((buildTables g).sr > 0 →
        srConflictMsg (buildTables g).sr ∈ conflictWarnings (buildTables g)) ∧
      ((buildTables g).rr > 0 →
        rrConflictMsg (buildTables g).rr ∈ conflictWarnings (buildTables g)) ∧
      (buildTables yaccSRGrammar).sr = 20 ∧
      (buildTables yaccRRGrammar).rr = 1 := by
  refine ⟨?_, ?_, ?_, ?_, ?_⟩
  · simp [buildParser, hok]
  · intro h
    simp only [conflictWarnings]
    rw [if_pos h]
    exact List.mem_append.mpr (Or.inl (List.mem_singleton.mpr rfl))
  · intro h
    simp only [conflictWarnings]
    rw [if_pos h]
    exact List.mem_append.mpr (Or.inr (List.mem_singleton.mpr rfl))
  · decide
  · decide

/-- C2 witness: instantiated at the yacc_sr grammar, whose validations all
pass while its tables carry 20 counted shift/reduce conflicts. -/
theorem C2_conflicts_are_warnings_witness :
    buildParser yaccSRGrammar =
      .ok (buildTables yaccSRGrammar, conflictWarnings (buildTables yaccSRGrammar)) ∧
    ((buildTables yaccSRGrammar).sr > 0 →
      srConflictMsg (buildTables yaccSRGrammar).sr ∈
        conflictWarnings (buildTables yaccSRGrammar)) ∧
    ((buildTables yaccSRGrammar).rr > 0 →
      rrConflictMsg (buildTables yaccSRGrammar).rr ∈
        conflictWarnings (buildTables yaccSRGrammar)) ∧
    (buildTables yaccSRGrammar).sr = 20 ∧
    (buildTables yaccRRGrammar).rr = 1 :=
  C2_conflicts_are_warnings yaccSRGrammar (by decide)

/-! ### Accumulation of build diagnostics (C5) -/

/-- Modelled from the spec §6 and the diagnostics recorded for
test_yacc_badrule (the yacc_badrule.py module itself is not among the
sources): four grammar callbacks with malformed production specifications at
the reported positions — three lines missing the colon and one
single-symbol line. -/
def yaccBadruleDecls : List RuleDecl :=
  [⟨[⟨"yacc_badrule.py", 24, "statement NAME EQUALS expression"⟩], none⟩,
   ⟨[⟨"yacc_badrule.py", 28, "statement"⟩], none⟩,
   ⟨[⟨"yacc_badrule.py", 33, "expression PLUS expression"⟩], none⟩,
   ⟨[⟨"yacc_badrule.py", 42, "expression MINUS expression"⟩], none⟩]

/-- Every diagnostic of one declaration survives into the accumulated batch
of the whole declaration list. -/
theorem parseDecls_accumulates {ds : List RuleDecl} {d : RuleDecl}
    (hd : d ∈ ds) :
    ∀ e ∈ (parseSpecLines none (effectiveSpec d)).1, e ∈ (parseDecls ds).1 := by
  induction ds with
  | nil => cases hd
  | cons a as ih =>
      intro e he
      rcases List.mem_cons.mp hd with rfl | h2
      · exact List.mem_append.mpr (Or.inl he)
      · exact List.mem_append.mpr (Or.inr (ih h2 e he))

/-- Every diagnostic of one state specifier survives into the accumulated
batch over the whole states declaration. -/
theorem checkStates_accumulates {specs : List StateSpec} {s : StateSpec}
    (hs : s ∈ specs) :
    ∀ e ∈ checkStateSpec s, e ∈ checkStates specs := by
  induction specs with
  | nil => cases hs
  | cons a as ih =>
      intro e he
      rcases List.mem_cons.mp hs with rfl | h2
      · exact List.mem_append.mpr (Or.inl he)
      · exact List.mem_append.mpr (Or.inr (ih h2 e he))

/-- C5: the builders validate every declaration and accumulate one
diagnostic per offender instead of stopping at the first error — any
declaration's diagnostics appear in the surfaced batch; concretely, the four
malformed production specifications of the yacc_badrule scenario yield
exactly four positioned syntax-error diagnostics, and the two invalid state
specifiers of lex_state2 yield exactly two diagnostics. -/
theorem C5_all_errors_reported (ds : List RuleDecl) (d : RuleDecl)
    (hd : d ∈ ds) (specs : List StateSpec) (s : StateSpec) (hs : s ∈ specs) :
    (∀ e ∈ (parseSpecLines none (effectiveSpec d)).1, e ∈ (parseDecls ds).1) ∧
      (∀ e ∈ checkStateSpec s, e ∈ checkStates specs) ∧
      (parseDecls yaccBadruleDecls).1 =
        [expectedColonMsg "yacc_badrule.py" 24,
         syntaxErrorInRuleMsg "yacc_badrule.py" 28 "statement",
         expectedColonMsg "yacc_badrule.py" 33,
         expectedColonMsg "yacc_badrule.py" 42] ∧
      checkStates lexState2States =
        [badStateSpecMsg "comment", badStateSpecMsg "example"] :=
  ⟨parseDecls_accumulates hd, checkStates_accumulates hs, by decide, by decide⟩

/-- C5 witness: instantiated at the yacc_badrule declarations and the
lex_state2 states tuple. -/
theorem C5_all_errors_reported_witness :
    (∀ e ∈ (parseSpecLines none
        (effectiveSpec ⟨[⟨"yacc_badrule.py", 28, "statement"⟩], none⟩)).1,
      e ∈ (parseDecls yaccBadruleDecls).1) ∧
      (∀ e ∈ checkStateSpec (.plain "comment"), e ∈ checkStates lexState2States) ∧
      (parseDecls yaccBadruleDecls).1 =
        [expectedColonMsg "yacc_badrule.py" 24,
         syntaxErrorInRuleMsg "yacc_badrule.py" 28 "statement",
         expectedColonMsg "yacc_badrule.py" 33,
         expectedColonMsg "yacc_badrule.py" 42] ∧
      checkStates lexState2States =
        [badStateSpecMsg "comment", badStateSpecMsg "example"] :=
  C5_all_errors_reported yaccBadruleDecls
    ⟨[⟨"yacc_badrule.py", 28, "statement"⟩], none⟩ (by decide)
    lexState2States (.plain "comment") (by decide)

/-! ### The SPEC-decorated grammar of src/test/yacc_decorator.py (C10) -/

/-- The token list the decorator parser imports from calclex. -/
def calcTokens : List String :=
  ["NAME", "NUMBER", "PLUS", "MINUS", "TIMES", "DIVIDE", "EQUALS",
   "LPAREN", "RPAREN"]

/-- The precedence declaration of the CalcParser class,
`src/test/yacc_decorator.py:18-22`. -/
def calcPrecDecls : List (String × List String) :=
  [("left", ["PLUS", "MINUS"]), ("left", ["TIMES", "DIVIDE"]),
   ("right", ["UMINUS"])]

/-- The grammar callbacks of the CalcParser instance,
`src/test/yacc_decorator.py:27-66`: each carries its production
specification through the `SPEC` decorator while its docstring holds
ordinary prose documentation. -/
def decoratorDecls : List RuleDecl :=
  [⟨[⟨"yacc_decorator.py", 29, "Assign statement"⟩],
    some [⟨"yacc_decorator.py", 27, "statement : NAME EQUALS expression"⟩]⟩,
   ⟨[⟨"yacc_decorator.py", 34, "Expression statement"⟩],
    some [⟨"yacc_decorator.py", 32, "statement : expression"⟩]⟩,
   ⟨[⟨"yacc_decorator.py", 42, "Binary operations"⟩],
    some [⟨"yacc_decorator.py", 37, "expression : expression PLUS expression"⟩,
          ⟨"yacc_decorator.py", 38, "| expression MINUS expression"⟩,
          ⟨"yacc_decorator.py", 39, "| expression TIMES expression"⟩,
          ⟨"yacc_decorator.py", 40, "| expression DIVIDE expression"⟩]⟩,
   ⟨[⟨"yacc_decorator.py", 50, "Unary minus"⟩],
    some [⟨"yacc_decorator.py", 48, "expression : MINUS expression %prec UMINUS"⟩]⟩,
   ⟨[⟨"yacc_decorator.py", 55, "Grouped expression"⟩],
    some [⟨"yacc_decorator.py", 53, "expression : LPAREN expression RPAREN"⟩]⟩,
   ⟨[⟨"yacc_decorator.py", 60, "Number"⟩],
    some [⟨"yacc_decorator.py", 58, "expression : NUMBER"⟩]⟩,
   ⟨[⟨"yacc_decorator.py", 65, "Variable name"⟩],
    some [⟨"yacc_decorator.py", 63, "expression : NAME"⟩]⟩]

/-- The grammar assembled from a declaration list: parse every effective
specification, the start symbol being the lhs of the first production
(spec §6). -/
def grammarOf (tokens : List String) (precDecls : List (String × List String))
    (ds : List RuleDecl) : List String × Grammar :=
  let r := parseDecls ds
  (r.1,
    { tokens := tokens, prods := r.2,
      start := ((r.2.head?).map (·.lhs)).getD "", precDecls := precDecls })

/-- The grammar the decorator module declares. -/
def calcDecoratorGrammar : Grammar :=
  (grammarOf calcTokens calcPrecDecls decoratorDecls).2

/-- C10: the grammar declared entirely through `SPEC` decorators builds
successfully — every callback carries its specification in the explicit
`SPEC` attribute (so the docstring is free for plain documentation: parsed
as a specification it would be a syntax error), the eight callbacks
contribute ten productions with no parse diagnostic, the grammar passes all
validations, and the build returns tables with no conflict warning. -/
theorem C10_spec_decorator_builds :
    (∀ d ∈ decoratorDecls, ∃ sp, d.specAttr = some sp ∧ effectiveSpec d = sp) ∧
      (parseDecls decoratorDecls).1 = [] ∧
      calcDecoratorGrammar.prods.length = 10 ∧
      (parseSpecLines none
        [⟨"yacc_decorator.py", 29, "Assign statement"⟩]).1 =
        [expectedColonMsg "yacc_decorator.py" 29] ∧
      buildParser calcDecoratorGrammar =
        .ok (buildTables calcDecoratorGrammar, []) := by
  refine ⟨?_, by decide, by decide, by decide, ?_⟩
  · intro d hd
    fin_cases hd <;> exact ⟨_, rfl, rfl⟩
  · have hok : grammarErrors calcDecoratorGrammar = [] := by decide
    have hcw : conflictWarnings (buildTables calcDecoratorGrammar) = [] := by decide
    rw [← hcw]
    simp [buildParser, hok]

end Ply
